import Mathlib

/-! Floating circles (script.js): particle population and render/update loop.

A shallow embedding of `src/script.js`.

* JavaScript numbers are modelled by exact rationals (`ℚ`): every statement
  below is about the exact-arithmetic reading of the source expressions, not
  about IEEE-754 rounding.
* `canvas.clientWidth` / `clientHeight` are integers, so the viewport is a
  pair of naturals.
* The host functions the script calls but does not define are collected in
  `Host`: the stream of values returned by successive `Math.random()` calls,
  `Math.sin`, and the number-to-text conversion used by template literals.
* `Math.round (count * Math.sqrt areaFactor)` is computed exactly through
  `Nat.sqrt`; `jsRoundMulSqrt_eq_floor` relates it to `Real.sqrt`. Statements
  that equate the count with a formula are restricted to areas on which the
  doubles of the source round to the same integer.
-/

namespace FloatingCircles

/-! ## Configuration (script.js lines 1-15) -/

/-- The `CONFIG` object. -/
structure Config where
  count : Nat
  baseSize : ℚ
  sizeVariance : ℚ
  speed : ℚ
  drift : ℚ
  colors : List String
  blur : ℚ
  mouseParallax : ℚ

/-- The shipped `CONFIG` literal. -/
def CONFIG : Config where
  count := 10
  baseSize := 18
  sizeVariance := 28
  speed := 0.2
  drift := 0.5
  colors :=
    [ "rgba(255,255,255,0.07)"
    , "rgba(173,216,230,0.06)"
    , "rgba(255,182,193,0.05)"
    , "rgba(144,238,144,0.04)" ]
  blur := 20
  mouseParallax := 0.02

/-- Host functions used by the script: `random k` is the value returned by the
`k`-th call of `Math.random()`, `sin` is `Math.sin`, and `fmt` is the text a
number takes inside a template literal. -/
structure Host where
  random : Nat → ℚ
  sin : ℚ → ℚ
  fmt : ℚ → String

/-- The guarantee of `Math.random()`: every draw lies in `[0, 1)`. -/
def Host.unitDraws (host : Host) : Prop :=
  ∀ k, 0 ≤ host.random k ∧ host.random k < 1

/-- The double constant `Math.PI` (3.141592653589793), as an exact rational. -/
def Math_PI : ℚ := 884279719003555 / 281474976710656

/-! ## Helpers (script.js lines 39-41) -/

/-- Line 39: `rand(min, max)` with `u` the value drawn by `Math.random()`. -/
def rand (u min max : ℚ) : ℚ := u * (max - min) + min

/-- Line 41: `pick(arr)` with `u` the value drawn by `Math.random()`; `none`
is JavaScript `undefined` (index out of range). -/
def pick (arr : List String) (u : ℚ) : Option String :=
  let i : ℤ := ⌊u * (arr.length : ℚ)⌋
  if 0 ≤ i then arr.get? i.toNat else none

/-! ## Particle count (script.js lines 45-46) -/

/-- Line 45: `areaFactor = (width * height) / (1366 * 768)`. -/
def areaFactor (width height : Nat) : ℚ :=
  ((width : ℚ) * (height : ℚ)) / (1366 * 768)

/-- `Math.round (c * Math.sqrt q)` for a natural `c` and `q ≥ 0`, in exact
arithmetic: `round t = ⌊t + 1/2⌋ = ⌊(√(4 c² q) + 1) / 2⌋`. The double
evaluation of line 46 can land on the other side of a half only when
`c · √q` is within a few units in the last place of one; with `c = 10` and
`q = areaFactor` the smallest such area is 187275125129422, beyond any
canvas (at 15928970×11787707 the doubles give 133784, this function 133783). -/
def jsRoundMulSqrt (c : Nat) (q : ℚ) : Nat :=
  (Nat.sqrt ⌊4 * ((c : ℚ) * (c : ℚ)) * q⌋₊ + 1) / 2

/-- Line 46: `targetCount = Math.max(8, Math.round(CONFIG.count * Math.sqrt(areaFactor)))`,
read in exact arithmetic. -/
def targetCount (cfg : Config) (width height : Nat) : Nat :=
  max 8 (jsRoundMulSqrt cfg.count (areaFactor width height))

/-- The count as section 4.1 of the specification words it: scale, floor, clamp
to 8 (`⌊c √q⌋ = ⌊√(c² q)⌋`). -/
def specFloorCount (cfg : Config) (width height : Nat) : Nat :=
  max 8 (Nat.sqrt ⌊((cfg.count : ℚ) * (cfg.count : ℚ)) * areaFactor width height⌋₊)

/-! ## Particles and generation (script.js lines 43-59) -/

/-- One entry of `circles`. `color = none` is JavaScript `undefined` (what
`pick` yields out of range); `currentAlpha = none` is the field before the
first `render` has set it. -/
structure Particle where
  x : ℚ
  y : ℚ
  vx : ℚ
  vy : ℚ
  radius : ℚ
  color : Option String
  alpha : ℚ
  twinkle : ℚ
  twPhase : ℚ
  currentAlpha : Option ℚ
  deriving DecidableEq

/-- Lines 49-57: the body of the generation loop. `k` is the number of
`Math.random()` calls made before it; the result carries the number made
after it. The draws are consumed in the source's evaluation order. -/
def mkCircle (cfg : Config) (host : Host) (width height : Nat) (k : Nat) : Particle × Nat :=
  let radius := max 2 (cfg.baseSize + rand (host.random k) (-cfg.sizeVariance) cfg.sizeVariance)
  let x := rand (host.random (k + 1)) (-radius) ((width : ℚ) + radius)
  let y := rand (host.random (k + 2)) (-(height : ℚ) * 0.5) ((height : ℚ) + (height : ℚ) * 0.5)
  let vy := rand (host.random (k + 3)) 0.08 0.8 * cfg.speed * (0.6 + host.random (k + 4))
  let vx := rand (host.random (k + 5)) (-0.4) 0.4 * cfg.drift
  let color := pick cfg.colors (host.random (k + 6))
  let alpha := rand (host.random (k + 7)) 0.02 0.18
  let tw : Bool := decide (host.random (k + 8) < 0.06)
  let twinkle := if tw then rand (host.random (k + 9)) 0.2 0.7 else 0
  let k1 := if tw then k + 10 else k + 9
  ({ x := x, y := y, vx := vx, vy := vy, radius := radius, color := color, alpha := alpha,
     twinkle := twinkle, twPhase := host.random k1 * Math_PI * 2, currentAlpha := none },
   k1 + 1)

/-- Line 48: the loop `for (let i = 0; i < targetCount; i++)`, by the number
of iterations left. -/
def initLoop (cfg : Config) (host : Host) (width height : Nat) :
    Nat → Nat → List Particle × Nat
  | 0, k => ([], k)
  | n + 1, k =>
    let r := mkCircle cfg host width height k
    let rest := initLoop cfg host width height n r.2
    (r.1 :: rest.1, rest.2)

/-- Lines 43-59: `initCircles()`; returns the new `circles` and the number of
`Math.random()` calls made so far. -/
def initCircles (cfg : Config) (host : Host) (width height : Nat) (k : Nat) :
    List Particle × Nat :=
  initLoop cfg host width height (targetCount cfg width height) k

/-! ## Fill style (script.js lines 68 and 97) -/

/-- The class `\d` of a JavaScript regular expression. -/
def isDigitChar (c : Char) : Bool := decide ('0' ≤ c) && decide (c ≤ '9')

/-- The class `\s` of a JavaScript regular expression (white space and line
terminators). -/
def isSpaceChar (c : Char) : Bool :=
  let n := c.toNat
  (9 ≤ n && n ≤ 13) || n == 32 || n == 160 || n == 5760 || (8192 ≤ n && n ≤ 8202) ||
    n == 8232 || n == 8233 || n == 8239 || n == 8287 || n == 12288 || n == 65279

/-- The class `[\d\s,]`. -/
def isGroupChar (c : Char) : Bool := isDigitChar c || isSpaceChar c || c == ','

/-- A match of `/rgba\(([\d\s,]+)\)/` starting at the head of `s`: the captured
group and the text after the match. The greedy `+` takes the longest run of
class characters; as `)` is not in the class, no shorter run can be followed
by `)`, so backtracking never yields another match. -/
def matchRgbaHere (s : List Char) : Option (List Char × List Char) :=
  match s with
  | 'r' :: 'g' :: 'b' :: 'a' :: '(' :: t =>
    match t.takeWhile isGroupChar, t.dropWhile isGroupChar with
    | g :: gs, ')' :: rest => some (g :: gs, rest)
    | _, _ => none
  | _ => none

/-- The call `s.replace(/rgba\(([\d\s,]+)\)/, "rgba($1," + a + ")")`: the
leftmost match is replaced, a string without a match is returned unchanged. -/
def replaceRgba (a : List Char) : List Char → List Char
  | [] => []
  | c :: t =>
    match matchRgbaHere (c :: t) with
    | some (g, rest) => "rgba(".toList ++ g ++ [','] ++ a ++ [')'] ++ rest
    | none => c :: replaceRgba a t

/-- Lines 68 and 97: the value assigned to `ctx.fillStyle` for a colour string
and the text of the alpha value. -/
def fillStyleFor (color : String) (alphaText : String) : String :=
  String.mk (replaceRgba alphaText.toList color.toList)

/-! ## Drawing (script.js lines 61-113) -/

/-- A quotient of JavaScript numbers: `none` when the divisor is zero (the
result is then `Infinity`, `-Infinity` or `NaN`, never a finite number). -/
def jsDiv (a b : ℚ) : Option ℚ := if b = 0 then none else some (a / b)

/-- One `ctx.arc(...); ctx.fill()`: the fill style and filter in force, the
global alpha, the centre and the radius. `filterBlur = none` is
`ctx.filter = "none"`; a coordinate `none` is a value that is not finite. -/
structure Disc where
  fillStyle : String
  filterBlur : Option ℚ
  globalAlpha : ℚ
  x : Option ℚ
  y : Option ℚ
  radius : ℚ
  deriving DecidableEq

/-- State of one running instance: viewport, particle list, pointer, the number
of `Math.random()` calls made so far, the discs on the canvas, the number of
`requestAnimationFrame(render)` calls made so far, and the number of calls
that ended in an uncaught `TypeError`. -/
structure State where
  width : Nat
  height : Nat
  circles : List Particle
  pointerX : ℚ
  pointerY : ℚ
  k : Nat
  canvas : List Disc
  frameRequests : Nat
  errors : Nat

/-- Result of a loop over `circles` that draws: the (mutated) list, the discs
drawn, the random calls made, and whether `c.color.replace` threw on an
undefined colour (the loop stops there). -/
structure DrawResult where
  circles : List Particle
  discs : List Disc
  k : Nat
  threw : Bool

/-- Lines 66-72: the loop of `drawStatic`. -/
def staticPass (cfg : Config) (host : Host) : List Particle → List Disc × Bool
  | [] => ([], false)
  | c :: cs =>
    match c.color with
    | none => ([], true)
    | some col =>
      let r := staticPass cfg host cs
      ({ fillStyle := fillStyleFor col (host.fmt c.alpha), filterBlur := some cfg.blur,
         globalAlpha := 1, x := some c.x, y := some c.y, radius := c.radius } :: r.1, r.2)

/-- Lines 61-74: `drawStatic()`. -/
def drawStatic (cfg : Config) (host : Host) (s : State) : State :=
  let r := staticPass cfg host s.circles
  { s with canvas := r.1, errors := if r.2 then s.errors + 1 else s.errors }

/-- Lines 80-81: the parallax offset `(px, py)`. -/
def parallax (cfg : Config) (width height : Nat) (pointerX pointerY : ℚ) :
    Option ℚ × Option ℚ :=
  ((jsDiv pointerX (width : ℚ)).map fun t => (t - 0.5) * (width : ℚ) * cfg.mouseParallax,
   (jsDiv pointerY (height : ℚ)).map fun t => (t - 0.5) * (height : ℚ) * cfg.mouseParallax)

/-- Lines 99-100: `(drawX, drawY)`. -/
def drawPos (cfg : Config) (p : Option ℚ × Option ℚ) (c : Particle) : Option ℚ × Option ℚ :=
  let depth := jsDiv c.radius (cfg.baseSize + 1)
  (p.1.bind fun px => depth.map fun d => c.x + px * d,
   p.2.bind fun py => depth.map fun d => c.y + py * d)

/-- Lines 88-93: the twinkle update; returns the current alpha, the mutated
particle and the random calls made. -/
def twinkleStep (host : Host) (k : Nat) (c : Particle) : ℚ × Particle × Nat :=
  if c.twinkle ≠ 0 then
    let ph := c.twPhase + 0.016 * (0.6 + host.random k * 0.8)
    let a := c.alpha * (0.7 + 0.6 * host.sin ph)
    (a, { c with twPhase := ph, currentAlpha := some a }, k + 1)
  else
    (c.alpha, { c with currentAlpha := some c.alpha }, k)

/-- Lines 86-111: the drawing loop of `render`. -/
def drawPass (cfg : Config) (host : Host) (p : Option ℚ × Option ℚ) :
    List Particle → Nat → DrawResult
  | [], k => { circles := [], discs := [], k := k, threw := false }
  | c :: cs, k =>
    let t := twinkleStep host k c
    let a := t.1
    let c1 := t.2.1
    match c1.color with
    | none => { circles := c1 :: cs, discs := [], k := t.2.2, threw := true }
    | some col =>
      let fs := fillStyleFor col (host.fmt a)
      let pos := drawPos cfg p c1
      let glow : Disc :=
        { fillStyle := fs, filterBlur := some cfg.blur, globalAlpha := 1,
          x := pos.1, y := pos.2, radius := c1.radius }
      let core : Disc :=
        { fillStyle := fs, filterBlur := none, globalAlpha := min 1 (a * 6),
          x := pos.1, y := pos.2, radius := max 0.6 (c1.radius * 0.25) }
      let r := drawPass cfg host p cs t.2.2
      { circles := c1 :: r.circles, discs := glow :: core :: r.discs, k := r.k, threw := r.threw }

/-! ## Physics (script.js lines 116-133) -/

/-- Lines 118-121: move the particle and nudge `vx` (the sine takes the
already updated `x`). -/
def advance (host : Host) (now : ℚ) (c : Particle) : Particle :=
  let x1 := c.x + c.vx
  { c with x := x1, y := c.y - c.vy,
           vx := c.vx + host.sin ((x1 + now * 0.0002) * 0.002) * 0.0005 }

/-- Line 124: the recycling test. -/
def offScreen (width : Nat) (c : Particle) : Bool :=
  decide (c.y + c.radius < -50) || decide (c.x < -200) || decide (c.x > (width : ℚ) + 200)

/-- Lines 126-129: place the particle back near the bottom (four draws). -/
def recycle (cfg : Config) (host : Host) (width height : Nat) (k : Nat) (c : Particle) :
    Particle :=
  { c with x := rand (host.random k) (-50) ((width : ℚ) + 50),
           y := (height : ℚ) + rand (host.random (k + 1)) 10 ((height : ℚ) * 0.5),
           vy := rand (host.random (k + 2)) 0.08 0.8 * cfg.speed,
           vx := rand (host.random (k + 3)) (-0.4) 0.4 * cfg.drift }

/-- Lines 118-130: the body of the physics loop for one particle. -/
def updateParticle (cfg : Config) (host : Host) (width height : Nat) (now : ℚ) (k : Nat)
    (c : Particle) : Particle × Nat :=
  let c1 := advance host now c
  if offScreen width c1 then (recycle cfg host width height k c1, k + 4) else (c1, k)

/-- Lines 117-131: the physics loop over `circles`. -/
def physicsPass (cfg : Config) (host : Host) (width height : Nat) (now : ℚ) :
    List Particle → Nat → List Particle × Nat
  | [], k => ([], k)
  | c :: cs, k =>
    let r := updateParticle cfg host width height now k c
    let rest := physicsPass cfg host width height now cs r.2
    (r.1 :: rest.1, rest.2)

/-- Lines 76-134: `render(now)`. An uncaught `TypeError` in the drawing loop
ends the call before the physics update and before the next frame is
requested. -/
def render (cfg : Config) (host : Host) (reducedMotion : Bool) (now : ℚ) (s : State) : State :=
  let d := drawPass cfg host (parallax cfg s.width s.height s.pointerX s.pointerY) s.circles s.k
  if d.threw then
    { s with circles := d.circles, k := d.k, canvas := d.discs, errors := s.errors + 1 }
  else if !reducedMotion then
    let ph := physicsPass cfg host s.width s.height now d.circles d.k
    { s with circles := ph.1, k := ph.2, canvas := d.discs,
             frameRequests := s.frameRequests + 1 }
  else
    { s with circles := d.circles, k := d.k, canvas := d.discs }

/-- Successive calls of `render`, one per timestamp. -/
def renderFrames (cfg : Config) (host : Host) (reducedMotion : Bool) : List ℚ → State → State
  | [], s => s
  | now :: rest, s => renderFrames cfg host reducedMotion rest (render cfg host reducedMotion now s)

/-- Lines 28-37: `resize()` for a canvas of client size `cw × ch` (the backing
store size and the transform, which depend on the device pixel ratio only,
are not part of the state). -/
def resize (cfg : Config) (host : Host) (cw ch : Nat) (s : State) : State :=
  let r := initCircles cfg host cw ch s.k
  { s with width := cw, height := ch, circles := r.1, k := r.2 }

/-- Lines 144-151: `init()`. -/
def init (cfg : Config) (host : Host) (reducedMotion : Bool) (cw ch : Nat) (s : State) : State :=
  let s1 := resize cfg host cw ch s
  if reducedMotion then drawStatic cfg host s1
  else { s1 with frameRequests := s1.frameRequests + 1 }

/-- The kinematic fields `(x, y, vx, vy)` of a particle. -/
def kinematics (c : Particle) : ℚ × ℚ × ℚ × ℚ := (c.x, c.y, c.vx, c.vy)

/-- Every field of a particle other than `x`, `y`, `vx`, `vy`: radius, colour,
base alpha, twinkle amplitude, twinkle phase and current alpha. -/
def nonKinematic (c : Particle) : ℚ × Option String × ℚ × ℚ × ℚ × Option ℚ :=
  (c.radius, c.color, c.alpha, c.twinkle, c.twPhase, c.currentAlpha)

/-! ## Concrete inputs used in examples -/

/-- A host whose every `Math.random()` call returns 1/2 and whose sine is
constantly 0. -/
def midHost : Host where
  random := fun _ => 1 / 2
  sin := fun _ => 0
  fmt := fun _ => "0.1"

/-- A particle about to leave through the top of the viewport. -/
def risingParticle : Particle where
  x := 100
  y := -100
  vx := 0
  vy := 1
  radius := 2
  color := some "rgba(255,255,255,0.07)"
  alpha := 0.1
  twinkle := 0
  twPhase := 0
  currentAlpha := none

/-- The shipped configuration with another parallax strength. -/
def withParallax (strength : ℚ) : Config := { CONFIG with mouseParallax := strength }

/-! ## Lemmas on the particle count -/

/-- Floor of a real square root through `Nat.sqrt`. -/
theorem natFloor_sqrt (m : ℝ) (hm : 0 ≤ m) : ⌊Real.sqrt m⌋₊ = Nat.sqrt ⌊m⌋₊ := by
  apply le_antisymm
  · rw [Nat.le_sqrt]
    have h1 : ((⌊Real.sqrt m⌋₊ : ℕ) : ℝ) ≤ Real.sqrt m := Nat.floor_le (Real.sqrt_nonneg m)
    have h2 : ((⌊Real.sqrt m⌋₊ : ℕ) : ℝ) * (⌊Real.sqrt m⌋₊ : ℕ) ≤ m := by
      calc ((⌊Real.sqrt m⌋₊ : ℕ) : ℝ) * (⌊Real.sqrt m⌋₊ : ℕ)
          ≤ Real.sqrt m * Real.sqrt m :=
            mul_le_mul h1 h1 (Nat.cast_nonneg _) (Real.sqrt_nonneg m)
        _ = m := Real.mul_self_sqrt hm
    apply Nat.le_floor
    push_cast
    exact h2
  · rw [Nat.le_floor_iff (Real.sqrt_nonneg m)]
    apply Real.le_sqrt_of_sq_le
    have h : Nat.sqrt ⌊m⌋₊ * Nat.sqrt ⌊m⌋₊ ≤ ⌊m⌋₊ := Nat.sqrt_le _
    have h3 : ((Nat.sqrt ⌊m⌋₊ * Nat.sqrt ⌊m⌋₊ : ℕ) : ℝ) ≤ m :=
      le_trans (Nat.cast_le.mpr h) (Nat.floor_le hm)
    push_cast at h3
    nlinarith [h3]

/-- The executable rounding agrees with `⌊c · √q + 1/2⌋` over the reals. -/
theorem jsRoundMulSqrt_eq_floor (c : Nat) (q : ℚ) (hq : 0 ≤ q) :
    jsRoundMulSqrt c q = ⌊(c : ℝ) * Real.sqrt (q : ℝ) + 1 / 2⌋₊ := by
  have hq' : (0 : ℝ) ≤ (q : ℝ) := by exact_mod_cast hq
  have hm : (0 : ℝ) ≤ 4 * ((c : ℝ) * c) * (q : ℝ) := by positivity
  have hs : Real.sqrt (4 * ((c : ℝ) * c) * (q : ℝ)) = 2 * ((c : ℝ) * Real.sqrt (q : ℝ)) := by
    have : 4 * ((c : ℝ) * c) * (q : ℝ) = (2 * (c : ℝ)) ^ 2 * (q : ℝ) := by ring
    rw [this, Real.sqrt_mul (by positivity), Real.sqrt_sq (by positivity)]
    ring
  have hfl : ⌊4 * ((c : ℚ) * (c : ℚ)) * q⌋₊ = ⌊4 * ((c : ℝ) * c) * (q : ℝ)⌋₊ := by
    rw [← Int.floor_toNat, ← Int.floor_toNat, ← Rat.floor_cast (α := ℝ)]
    push_cast
    rfl
  unfold jsRoundMulSqrt
  rw [hfl, ← natFloor_sqrt _ hm, hs]
  have h2 : (c : ℝ) * Real.sqrt (q : ℝ) + 1 / 2
      = (2 * ((c : ℝ) * Real.sqrt (q : ℝ)) + 1) / ((2 : ℕ) : ℝ) := by
    push_cast; ring
  rw [h2, Nat.floor_div_nat, Nat.floor_add_one (by positivity)]

/-- The floor of the area ratio scaled by a natural factor is a natural quotient. -/
theorem natFloor_mul_areaFactor (n width height : Nat) :
    ⌊(n : ℚ) * areaFactor width height⌋₊ = n * (width * height) / 1049088 := by
  have h : (n : ℚ) * areaFactor width height
      = ((n * (width * height) : ℕ) : ℚ) / ((1049088 : ℕ) : ℚ) := by
    unfold areaFactor
    push_cast
    ring
  rw [h, Rat.natFloor_natCast_div_natCast]

/-- The particle count in natural-number arithmetic. -/
theorem targetCount_eq_nat (cfg : Config) (width height : Nat) :
    targetCount cfg width height
      = max 8 ((Nat.sqrt (4 * (cfg.count * cfg.count) * (width * height) / 1049088) + 1) / 2) := by
  unfold targetCount jsRoundMulSqrt
  have h : 4 * ((cfg.count : ℚ) * (cfg.count : ℚ)) * areaFactor width height
      = ((4 * (cfg.count * cfg.count) : ℕ) : ℚ) * areaFactor width height := by
    push_cast; ring
  rw [h, natFloor_mul_areaFactor]

/-- The floored count in natural-number arithmetic. -/
theorem specFloorCount_eq_nat (cfg : Config) (width height : Nat) :
    specFloorCount cfg width height
      = max 8 (Nat.sqrt (cfg.count * cfg.count * (width * height) / 1049088)) := by
  unfold specFloorCount
  have h : ((cfg.count : ℚ) * (cfg.count : ℚ)) * areaFactor width height
      = ((cfg.count * cfg.count : ℕ) : ℚ) * areaFactor width height := by
    push_cast; ring
  rw [h, natFloor_mul_areaFactor]

theorem areaFactor_nonneg (width height : Nat) : 0 ≤ areaFactor width height := by
  unfold areaFactor
  positivity

/-- The area ratio as a real number. -/
theorem areaFactor_cast (width height : Nat) :
    ((areaFactor width height : ℚ) : ℝ) = ((width : ℝ) * (height : ℝ)) / (1366 * 768) := by
  unfold areaFactor
  push_cast
  rfl

/-- The floored count agrees with `max 8 ⌊c · √areaFactor⌋` over the reals. -/
theorem specFloorCount_eq_floor (cfg : Config) (width height : Nat) :
    specFloorCount cfg width height
      = max 8 ⌊(cfg.count : ℝ) * Real.sqrt (((width : ℝ) * (height : ℝ)) / (1366 * 768))⌋₊ := by
  have hq : (0 : ℝ) ≤ ((areaFactor width height : ℚ) : ℝ) := by
    exact_mod_cast areaFactor_nonneg width height
  have hs : Real.sqrt (((cfg.count : ℝ) * cfg.count) * ((areaFactor width height : ℚ) : ℝ))
      = (cfg.count : ℝ) * Real.sqrt ((areaFactor width height : ℚ) : ℝ) := by
    have : ((cfg.count : ℝ) * cfg.count) * ((areaFactor width height : ℚ) : ℝ)
        = (cfg.count : ℝ) ^ 2 * ((areaFactor width height : ℚ) : ℝ) := by ring
    rw [this, Real.sqrt_mul (by positivity), Real.sqrt_sq (by positivity)]
  have hfl : ⌊((cfg.count : ℚ) * (cfg.count : ℚ)) * areaFactor width height⌋₊
      = ⌊((cfg.count : ℝ) * cfg.count) * ((areaFactor width height : ℚ) : ℝ)⌋₊ := by
    rw [← Int.floor_toNat, ← Int.floor_toNat, ← Rat.floor_cast (α := ℝ)]
    push_cast
    rfl
  unfold specFloorCount
  rw [hfl, ← natFloor_sqrt _ (by positivity), hs, areaFactor_cast]

/-- The particle count is monotone in the viewport area, for every configuration. -/
theorem targetCount_mono (cfg : Config) (w1 h1 w2 h2 : Nat) (hA : w1 * h1 ≤ w2 * h2) :
    targetCount cfg w1 h1 ≤ targetCount cfg w2 h2 := by
  rw [targetCount_eq_nat, targetCount_eq_nat]
  apply max_le_max (le_refl 8)
  apply Nat.div_le_div_right
  apply Nat.add_le_add_right
  apply Nat.sqrt_le_sqrt
  apply Nat.div_le_div_right
  exact Nat.mul_le_mul_left _ hA

/-- C1: for every viewport the particle count derived by `initCircles` under the
shipped configuration is at least 8, and it is non-decreasing in the viewport
area `width * height`. -/
theorem targetCount_floor_and_monotone (width height : Nat) :
    8 ≤ targetCount CONFIG width height ∧
      ∀ width2 height2 : Nat, width * height ≤ width2 * height2 →
        targetCount CONFIG width height ≤ targetCount CONFIG width2 height2 :=
  ⟨le_max_left _ _, fun w2 h2 hA => targetCount_mono CONFIG width height w2 h2 hA⟩

/-- Witness of C1 at the viewports 1366×568 and 1366×768. -/
theorem targetCount_floor_and_monotone_witness :
    1366 * 568 ≤ 1366 * 768 ∧ targetCount CONFIG 1366 568 ≤ targetCount CONFIG 1366 768 :=
  ⟨by decide, (targetCount_floor_and_monotone 1366 568).2 1366 768 (by decide)⟩

/-- C2 (as stated, refuted): at the viewport 1366×568 the code derives 9
particles (`10 · √(568/768) ≈ 8.6` rounds to 9), whereas flooring and clamping
gives 8. -/
theorem targetCount_floor_counterexample :
    targetCount CONFIG 1366 568 = 9 ∧ specFloorCount CONFIG 1366 568 = 8 ∧
      max 8 ⌊(10 : ℝ) * Real.sqrt (((1366 : ℝ) * 568) / (1366 * 768))⌋₊ = 8 := by
  have h9 : targetCount CONFIG 1366 568 = 9 := by
    rw [targetCount_eq_nat]
    have : Nat.sqrt (4 * (CONFIG.count * CONFIG.count) * (1366 * 568) / 1049088) = 17 := by
      symm; rw [Nat.eq_sqrt]; decide
    rw [this]; rfl
  have h8 : specFloorCount CONFIG 1366 568 = 8 := by
    rw [specFloorCount_eq_nat]
    have : Nat.sqrt (CONFIG.count * CONFIG.count * (1366 * 568) / 1049088) = 8 := by
      symm; rw [Nat.eq_sqrt]; decide
    rw [this]; rfl
  refine ⟨h9, h8, ?_⟩
  have h := specFloorCount_eq_floor CONFIG 1366 568
  rw [h8] at h
  have hc : ((CONFIG.count : ℕ) : ℝ) = 10 := by norm_num [CONFIG]
  rw [hc] at h
  exact_mod_cast h.symm

/-- C2 (amended): for every viewport of area at most `10 ^ 12`, the particle
count is the scaled value `10 · √(area / (1366·768))` rounded to the nearest
integer (halves up, as `Math.round` does) and then clamped to the minimum 8.
The bound keeps the statement inside the range of areas on which the doubles of
lines 45-46 round to the same integer as exact arithmetic. -/
theorem targetCount_eq_round_clamped (width height : Nat)
    (_hA : width * height ≤ 10 ^ 12) :
    targetCount CONFIG width height
      = max 8 ⌊(10 : ℝ) * Real.sqrt (((width : ℝ) * (height : ℝ)) / (1366 * 768)) + 1 / 2⌋₊ := by
  unfold targetCount
  rw [jsRoundMulSqrt_eq_floor _ _ (areaFactor_nonneg width height), areaFactor_cast]
  have hc : ((CONFIG.count : ℕ) : ℝ) = 10 := by norm_num [CONFIG]
  rw [hc]

/-- Witness of the amended C2 at the reference viewport 1366×768. -/
theorem targetCount_eq_round_clamped_witness :
    1366 * 768 ≤ 10 ^ 12 ∧
    targetCount CONFIG 1366 768
      = max 8 ⌊(10 : ℝ) * Real.sqrt ((((1366 : Nat) : ℝ) * ((768 : Nat) : ℝ)) / (1366 * 768))
          + 1 / 2⌋₊ :=
  ⟨by norm_num, targetCount_eq_round_clamped 1366 768 (by norm_num)⟩

/-! ## Recycling and the physics update -/

theorem rand_lower (u min max : ℚ) (h0 : 0 ≤ u) (hle : min ≤ max) : min ≤ rand u min max := by
  unfold rand
  nlinarith [mul_nonneg h0 (sub_nonneg.mpr hle)]

theorem rand_upper (u min max : ℚ) (h1 : u < 1) (hle : min ≤ max) : rand u min max ≤ max := by
  unfold rand
  nlinarith [mul_nonneg (sub_nonneg.mpr (le_of_lt h1)) (sub_nonneg.mpr hle)]

theorem midHost_unitDraws : midHost.unitDraws := by
  intro k
  simp only [midHost]
  norm_num

/-- C3 (as stated, refuted): in a 300×10 viewport a particle that has risen
past the top (`y + radius < -50` at the recycling test) is put back at
`y = 17.5`, below `height + 10 = 20` and above `height * 1.5 = 15`. -/
theorem recycle_short_viewport_counterexample :
    midHost.unitDraws ∧
    (advance midHost 0 risingParticle).y + (advance midHost 0 risingParticle).radius < -50 ∧
    (updateParticle CONFIG midHost 300 10 0 0 risingParticle).1.y = 35 / 2 ∧
    ¬ (((10 : Nat) : ℚ) + 10 ≤ (updateParticle CONFIG midHost 300 10 0 0 risingParticle).1.y) ∧
    ¬ ((updateParticle CONFIG midHost 300 10 0 0 risingParticle).1.y ≤ ((10 : Nat) : ℚ) * 1.5) := by
  refine ⟨midHost_unitDraws, ?_, ?_, ?_, ?_⟩ <;>
    norm_num [updateParticle, advance, offScreen, recycle, rand, midHost, risingParticle]

/-- C3 (amended): in every viewport of height at least 20, for every particle
with `y + radius < -50` at the recycling test and random draws in `[0, 1)`, one
update step leaves `height + 10 ≤ y ≤ height * 1.5` and `-50 ≤ x ≤ width + 50`. -/
theorem recycle_tall_viewport_band (cfg : Config) (host : Host) (width height : Nat) (now : ℚ) (k : Nat)
    (c : Particle) (hu : host.unitDraws) (hh : 20 ≤ height)
    (hoff : (advance host now c).y + (advance host now c).radius < -50) :
    (height : ℚ) + 10 ≤ (updateParticle cfg host width height now k c).1.y ∧
    (updateParticle cfg host width height now k c).1.y ≤ (height : ℚ) * 1.5 ∧
    -50 ≤ (updateParticle cfg host width height now k c).1.x ∧
    (updateParticle cfg host width height now k c).1.x ≤ (width : ℚ) + 50 := by
  have hrec : offScreen width (advance host now c) = true := by
    simp [offScreen, hoff]
  have hH : (20 : ℚ) ≤ (height : ℚ) := by exact_mod_cast hh
  have hW : (0 : ℚ) ≤ (width : ℚ) := Nat.cast_nonneg width
  have hy0 := rand_lower (host.random (k + 1)) 10 ((height : ℚ) * 0.5) (hu (k + 1)).1
    (by norm_num; linarith)
  have hy1 := rand_upper (host.random (k + 1)) 10 ((height : ℚ) * 0.5) (hu (k + 1)).2
    (by norm_num; linarith)
  have hx0 := rand_lower (host.random k) (-50) ((width : ℚ) + 50) (hu k).1 (by linarith)
  have hx1 := rand_upper (host.random k) (-50) ((width : ℚ) + 50) (hu k).2 (by linarith)
  simp only [updateParticle, hrec, if_true, recycle]
  refine ⟨by linarith, ?_, hx0, hx1⟩
  norm_num at hy1 ⊢
  linarith

/-- Witness of the amended C3 in a 300×400 viewport. -/
theorem recycle_tall_viewport_band_witness :
    (400 : ℚ) + 10 ≤ (updateParticle CONFIG midHost 300 400 0 0 risingParticle).1.y ∧
    (updateParticle CONFIG midHost 300 400 0 0 risingParticle).1.y ≤ (400 : ℚ) * 1.5 ∧
    -50 ≤ (updateParticle CONFIG midHost 300 400 0 0 risingParticle).1.x ∧
    (updateParticle CONFIG midHost 300 400 0 0 risingParticle).1.x ≤ (300 : ℚ) + 50 := by
  have h := recycle_tall_viewport_band CONFIG midHost 300 400 0 0 risingParticle midHost_unitDraws
    (by decide) (by norm_num [advance, midHost, risingParticle])
  exact_mod_cast h

theorem updateParticle_nonKinematic (cfg : Config) (host : Host) (width height : Nat)
    (now : ℚ) (k : Nat) (c : Particle) :
    nonKinematic (updateParticle cfg host width height now k c).1 = nonKinematic c := by
  simp only [updateParticle]
  split <;> rfl

/-- C4: one physics update pass of `render` (recycling included) returns a list
of the same length in which each slot keeps its radius, colour, base alpha and
twinkle amplitude, and also its twinkle phase and current alpha: only `x`, `y`,
`vx` and `vy` may differ. -/
theorem physicsPass_frame (cfg : Config) (host : Host) (width height : Nat) (now : ℚ)
    (circles : List Particle) (k : Nat) :
    (physicsPass cfg host width height now circles k).1.length = circles.length ∧
    (physicsPass cfg host width height now circles k).1.map nonKinematic
      = circles.map nonKinematic := by
  induction circles generalizing k with
  | nil => simp [physicsPass]
  | cons c cs ih =>
    have h := ih (updateParticle cfg host width height now k c).2
    simp only [physicsPass, List.length_cons, List.map_cons, h.1, h.2,
      updateParticle_nonKinematic, and_self]

/-! ## Generated particles -/

theorem mkCircle_radius (cfg : Config) (host : Host) (width height k : Nat) :
    (mkCircle cfg host width height k).1.radius
      = max 2 (cfg.baseSize + rand (host.random k) (-cfg.sizeVariance) cfg.sizeVariance) := rfl

theorem mkCircle_alpha (cfg : Config) (host : Host) (width height k : Nat) :
    (mkCircle cfg host width height k).1.alpha = rand (host.random (k + 7)) 0.02 0.18 := rfl

theorem mkCircle_vy (cfg : Config) (host : Host) (width height k : Nat) :
    (mkCircle cfg host width height k).1.vy
      = rand (host.random (k + 3)) 0.08 0.8 * cfg.speed * (0.6 + host.random (k + 4)) := rfl

theorem mkCircle_x (cfg : Config) (host : Host) (width height k : Nat) :
    (mkCircle cfg host width height k).1.x
      = rand (host.random (k + 1)) (-(mkCircle cfg host width height k).1.radius)
          ((width : ℚ) + (mkCircle cfg host width height k).1.radius) := rfl

theorem mkCircle_y (cfg : Config) (host : Host) (width height k : Nat) :
    (mkCircle cfg host width height k).1.y
      = rand (host.random (k + 2)) (-(height : ℚ) * 0.5) ((height : ℚ) + (height : ℚ) * 0.5) := rfl

theorem mkCircle_color (cfg : Config) (host : Host) (width height k : Nat) :
    (mkCircle cfg host width height k).1.color = pick cfg.colors (host.random (k + 6)) := rfl

/-- A property of every particle built by `mkCircle` holds of every particle
of the generation loop. -/
theorem initLoop_forall (cfg : Config) (host : Host) (width height : Nat) (P : Particle → Prop)
    (hP : ∀ k, P (mkCircle cfg host width height k).1) (n k : Nat) :
    ∀ c ∈ (initLoop cfg host width height n k).1, P c := by
  induction n generalizing k with
  | zero => simp [initLoop]
  | succ n ih =>
    intro c hc
    simp only [initLoop, List.mem_cons] at hc
    rcases hc with h | h
    · rw [h]; exact hP k
    · exact ih _ c h

theorem initLoop_length (cfg : Config) (host : Host) (width height : Nat) (n k : Nat) :
    (initLoop cfg host width height n k).1.length = n := by
  induction n generalizing k with
  | zero => simp [initLoop]
  | succ n ih => simp [initLoop, ih]

/-- With a draw in `[0, 1)` and a non-empty palette, `pick` returns a swatch. -/
theorem pick_mem (arr : List String) (u : ℚ) (h0 : 0 ≤ u) (h1 : u < 1) (hne : arr ≠ []) :
    ∃ s ∈ arr, pick arr u = some s := by
  have hlen : (0 : ℚ) < (arr.length : ℚ) := by
    exact_mod_cast List.length_pos.mpr hne
  have hnn : 0 ≤ ⌊u * (arr.length : ℚ)⌋ := Int.floor_nonneg.mpr (mul_nonneg h0 hlen.le)
  have hlt : ⌊u * (arr.length : ℚ)⌋ < (arr.length : ℤ) := by
    rw [Int.floor_lt]
    push_cast
    nlinarith
  have hidx : ⌊u * (arr.length : ℚ)⌋.toNat < arr.length := by
    omega
  refine ⟨arr.get ⟨_, hidx⟩, List.get_mem _ _ _, ?_⟩
  simp only [pick, hnn, if_true]
  exact List.get?_eq_get hidx

/-- C5: under the shipped configuration, for every viewport and all random
draws in `[0, 1)`, every particle produced by `initCircles` has radius in
`[2, baseSize + sizeVariance]` and base alpha in `[0.02, 0.18]`. -/
theorem initCircles_radius_alpha_bounds (host : Host) (width height k : Nat)
    (hu : host.unitDraws) :
    ∀ c ∈ (initCircles CONFIG host width height k).1,
      2 ≤ c.radius ∧ c.radius ≤ CONFIG.baseSize + CONFIG.sizeVariance ∧
      0.02 ≤ c.alpha ∧ c.alpha ≤ 0.18 := by
  apply initLoop_forall
  intro j
  rw [mkCircle_radius, mkCircle_alpha]
  have hr1 := rand_upper (host.random j) (-CONFIG.sizeVariance) CONFIG.sizeVariance (hu j).2
    (by norm_num [CONFIG])
  have ha0 := rand_lower (host.random (j + 7)) 0.02 0.18 (hu (j + 7)).1 (by norm_num)
  have ha1 := rand_upper (host.random (j + 7)) 0.02 0.18 (hu (j + 7)).2 (by norm_num)
  refine ⟨le_max_left _ _, max_le ?_ ?_, ha0, ha1⟩
  · norm_num [CONFIG]
  · linarith

/-- Witness of C5 with every draw equal to 1/2 in the 1366×768 viewport. -/
theorem initCircles_radius_alpha_bounds_witness :
    midHost.unitDraws ∧
    ∀ c ∈ (initCircles CONFIG midHost 1366 768 0).1,
      2 ≤ c.radius ∧ c.radius ≤ CONFIG.baseSize + CONFIG.sizeVariance ∧
      0.02 ≤ c.alpha ∧ c.alpha ≤ 0.18 :=
  ⟨midHost_unitDraws, initCircles_radius_alpha_bounds midHost 1366 768 0 midHost_unitDraws⟩

/-- C10: for a 0×0 viewport and all random draws in `[0, 1)`, `initCircles`
produces exactly 8 particles, each with `y = 0`, `x` in `[-radius, radius]` and
a colour of the palette. -/
theorem initCircles_zero_viewport (host : Host) (k : Nat) (hu : host.unitDraws) :
    (initCircles CONFIG host 0 0 k).1.length = 8 ∧
    ∀ c ∈ (initCircles CONFIG host 0 0 k).1,
      c.y = 0 ∧ -c.radius ≤ c.x ∧ c.x ≤ c.radius ∧ ∃ s ∈ CONFIG.colors, c.color = some s := by
  have hcount : targetCount CONFIG 0 0 = 8 := by
    rw [targetCount_eq_nat]; decide
  constructor
  · unfold initCircles
    rw [initLoop_length, hcount]
  · apply initLoop_forall
    intro j
    have hr : (2 : ℚ) ≤ (mkCircle CONFIG host 0 0 j).1.radius := by
      rw [mkCircle_radius]; exact le_max_left _ _
    refine ⟨?_, ?_, ?_, ?_⟩
    · rw [mkCircle_y]; simp [rand]
    · rw [mkCircle_x]
      exact rand_lower _ _ _ (hu (j + 1)).1 (by push_cast; linarith)
    · rw [mkCircle_x]
      have h := rand_upper (host.random (j + 1)) (-(mkCircle CONFIG host 0 0 j).1.radius)
        (((0 : Nat) : ℚ) + (mkCircle CONFIG host 0 0 j).1.radius) (hu (j + 1)).2
        (by push_cast; linarith)
      simpa using h
    · rw [mkCircle_color]
      exact pick_mem _ _ (hu (j + 6)).1 (hu (j + 6)).2 (by simp [CONFIG])

/-- Witness of C10 with every draw equal to 1/2. -/
theorem initCircles_zero_viewport_witness :
    midHost.unitDraws ∧ (initCircles CONFIG midHost 0 0 0).1.length = 8 :=
  ⟨midHost_unitDraws, (initCircles_zero_viewport midHost 0 midHost_unitDraws).1⟩

/-! ## Upward velocity -/

theorem rand_speed_pos (u : ℚ) (h0 : 0 ≤ u) : 0 < rand u 0.08 0.8 := by
  unfold rand
  norm_num
  nlinarith

theorem updateParticle_vy_pos (cfg : Config) (host : Host) (width height : Nat) (now : ℚ)
    (k : Nat) (c : Particle) (hs : 0 < cfg.speed) (hu : host.unitDraws) (hv : 0 < c.vy) :
    0 < (updateParticle cfg host width height now k c).1.vy := by
  simp only [updateParticle]
  split
  · exact mul_pos (rand_speed_pos _ (hu (k + 2)).1) hs
  · exact hv

theorem physicsPass_vy_pos (cfg : Config) (host : Host) (width height : Nat) (now : ℚ)
    (hs : 0 < cfg.speed) (hu : host.unitDraws) (cs : List Particle) (k : Nat)
    (hv : ∀ c ∈ cs, 0 < c.vy) :
    ∀ c ∈ (physicsPass cfg host width height now cs k).1, 0 < c.vy := by
  induction cs generalizing k with
  | nil => simp [physicsPass]
  | cons a as ih =>
    intro c hc
    simp only [physicsPass, List.mem_cons] at hc
    rcases hc with h | h
    · rw [h]
      exact updateParticle_vy_pos cfg host width height now k a hs hu (hv a (List.mem_cons_self _ _))
    · exact ih _ (fun b hb => hv b (List.mem_cons_of_mem _ hb)) c h

theorem twinkleStep_kinematics (host : Host) (k : Nat) (c : Particle) :
    kinematics (twinkleStep host k c).2.1 = kinematics c := by
  unfold twinkleStep
  split <;> rfl

/-- The drawing loop of `render` changes no particle's `x`, `y`, `vx` or `vy`,
whether or not it throws. -/
theorem drawPass_kinematics (cfg : Config) (host : Host) (p : Option ℚ × Option ℚ)
    (cs : List Particle) (k : Nat) :
    (drawPass cfg host p cs k).circles.map kinematics = cs.map kinematics := by
  induction cs generalizing k with
  | nil => simp [drawPass]
  | cons c cs ih =>
    simp only [drawPass]
    split
    · simp only [List.map_cons, twinkleStep_kinematics]
    · simp only [List.map_cons, twinkleStep_kinematics, ih]

theorem vy_pos_of_kinematics (cs ds : List Particle)
    (h : ds.map kinematics = cs.map kinematics) (hv : ∀ c ∈ cs, 0 < c.vy) :
    ∀ c ∈ ds, 0 < c.vy := by
  intro c hc
  have hm : kinematics c ∈ cs.map kinematics := by
    rw [← h]; exact List.mem_map_of_mem _ hc
  obtain ⟨b, hb, hbc⟩ := List.mem_map.mp hm
  have hvy : b.vy = c.vy := by
    have := congrArg (fun t => t.2.2.2) hbc
    simpa [kinematics] using this
  rw [← hvy]
  exact hv b hb

theorem render_vy_pos (cfg : Config) (host : Host) (reducedMotion : Bool) (now : ℚ) (s : State)
    (hs : 0 < cfg.speed) (hu : host.unitDraws) (hv : ∀ c ∈ s.circles, 0 < c.vy) :
    ∀ c ∈ (render cfg host reducedMotion now s).circles, 0 < c.vy := by
  have hd := vy_pos_of_kinematics s.circles _
    (drawPass_kinematics cfg host (parallax cfg s.width s.height s.pointerX s.pointerY)
      s.circles s.k) hv
  simp only [render]
  split
  · exact hd
  · split
    · exact physicsPass_vy_pos cfg host s.width s.height now hs hu _ _ hd
    · exact hd

theorem renderFrames_vy_pos (cfg : Config) (host : Host) (reducedMotion : Bool)
    (hs : 0 < cfg.speed) (hu : host.unitDraws) (nows : List ℚ) (s : State)
    (hv : ∀ c ∈ s.circles, 0 < c.vy) :
    ∀ c ∈ (renderFrames cfg host reducedMotion nows s).circles, 0 < c.vy := by
  induction nows generalizing s with
  | nil => exact hv
  | cons now rest ih =>
    simp only [renderFrames]
    exact ih _ (render_vy_pos cfg host reducedMotion now s hs hu hv)

theorem initCircles_vy_pos (cfg : Config) (host : Host) (width height k : Nat)
    (hs : 0 < cfg.speed) (hu : host.unitDraws) :
    ∀ c ∈ (initCircles cfg host width height k).1, 0 < c.vy := by
  apply initLoop_forall
  intro j
  rw [mkCircle_vy]
  have h4 := (hu (j + 4)).1
  exact mul_pos (mul_pos (rand_speed_pos _ (hu (j + 3)).1) hs) (by norm_num; linarith)

/-- C6: with `CONFIG.speed > 0` and random draws in `[0, 1)`, every particle
produced by `initCircles` has `vy > 0`; every physics update step preserves
`vy > 0`, recycled or not; after `init` and any number of frames every `vy`
is strictly positive; and a step that does not recycle strictly decreases `y`. -/
theorem vy_positive_invariant (cfg : Config) (host : Host) (hs : 0 < cfg.speed)
    (hu : host.unitDraws) :
    (∀ width height k, ∀ c ∈ (initCircles cfg host width height k).1, 0 < c.vy) ∧
    (∀ width height now k c, 0 < c.vy →
      0 < (updateParticle cfg host width height now k c).1.vy) ∧
    (∀ reducedMotion nows s, (∀ c ∈ s.circles, 0 < c.vy) →
      ∀ c ∈ (renderFrames cfg host reducedMotion nows s).circles, 0 < c.vy) ∧
    (∀ reducedMotion cw ch nows s,
      ∀ c ∈ (renderFrames cfg host reducedMotion nows
              (init cfg host reducedMotion cw ch s)).circles, 0 < c.vy) ∧
    (∀ width height now k c, 0 < c.vy → offScreen width (advance host now c) = false →
      (updateParticle cfg host width height now k c).1.y < c.y) := by
  refine ⟨fun w h k => initCircles_vy_pos cfg host w h k hs hu,
    fun w h now k c hv => updateParticle_vy_pos cfg host w h now k c hs hu hv,
    fun rm nows s hv => renderFrames_vy_pos cfg host rm hs hu nows s hv, ?_, ?_⟩
  · intro rm cw ch nows s
    apply renderFrames_vy_pos cfg host rm hs hu
    have hi := initCircles_vy_pos cfg host cw ch s.k hs hu
    cases rm
    · exact hi
    · exact hi
  · intro w h now k c hv hoff
    simp only [updateParticle, hoff]
    simp only [advance]
    simp
    exact hv

/-- Witness of C6: the shipped configuration, every draw equal to 1/2, three
frames after `init` in the 1366×768 viewport. -/
theorem vy_positive_invariant_witness :
    0 < CONFIG.speed ∧ midHost.unitDraws ∧
    ∀ c ∈ (renderFrames CONFIG midHost false [0, 16, 32]
            (init CONFIG midHost false 1366 768
              { width := 0, height := 0, circles := [], pointerX := 0, pointerY := 0, k := 0,
                canvas := [], frameRequests := 0, errors := 0 })).circles, 0 < c.vy :=
  ⟨by norm_num [CONFIG], midHost_unitDraws,
    (vy_positive_invariant CONFIG midHost (by norm_num [CONFIG]) midHost_unitDraws).2.2.2.1
      false 1366 768 [0, 16, 32] _⟩

/-! ## Fill style -/

/-- C7 (the code's behaviour): for every swatch of the shipped palette and every
alpha text, the pattern `rgba\(([\d\s,]+)\)` does not match (the swatch's own
alpha contains a `.`), so the fill style is the swatch itself, unchanged. -/
theorem fillStyle_keeps_swatch_alpha (alphaText : String) :
    CONFIG.colors.map (fun c => fillStyleFor c alphaText) = CONFIG.colors := by
  rfl

/-! ## Reduced motion -/

theorem render_reduced_kinematics (cfg : Config) (host : Host) (now : ℚ) (s : State) :
    (render cfg host true now s).circles.map kinematics = s.circles.map kinematics ∧
    (render cfg host true now s).frameRequests = s.frameRequests := by
  simp only [render]
  split
  · exact ⟨drawPass_kinematics _ _ _ _ _, rfl⟩
  · exact ⟨drawPass_kinematics _ _ _ _ _, rfl⟩

/-- C8: when `reducedMotion` is true, a call of `render` leaves every particle's
`x`, `y`, `vx` and `vy` unchanged and requests no further frame; hence after
any number of `render` calls (in particular after `init` with its static
draw) the positions and velocities are those before the calls. -/
theorem reducedMotion_freeze (cfg : Config) (host : Host) (s : State) :
    (∀ now, (render cfg host true now s).circles.map kinematics = s.circles.map kinematics ∧
      (render cfg host true now s).frameRequests = s.frameRequests) ∧
    (∀ nows, (renderFrames cfg host true nows s).circles.map kinematics
        = s.circles.map kinematics ∧
      (renderFrames cfg host true nows s).frameRequests = s.frameRequests) ∧
    (∀ cw ch nows,
      (renderFrames cfg host true nows (init cfg host true cw ch s)).circles.map kinematics
        = (init cfg host true cw ch s).circles.map kinematics ∧
      (renderFrames cfg host true nows (init cfg host true cw ch s)).frameRequests
        = s.frameRequests) := by
  have key : ∀ (nows : List ℚ) (t : State),
      (renderFrames cfg host true nows t).circles.map kinematics = t.circles.map kinematics ∧
      (renderFrames cfg host true nows t).frameRequests = t.frameRequests := by
    intro nows
    induction nows with
    | nil => intro t; exact ⟨rfl, rfl⟩
    | cons now rest ih =>
      intro t
      simp only [renderFrames]
      have h1 := ih (render cfg host true now t)
      have h2 := render_reduced_kinematics cfg host now t
      exact ⟨h1.1.trans h2.1, h1.2.trans h2.2⟩
  refine ⟨fun now => render_reduced_kinematics cfg host now s, fun nows => key nows s, ?_⟩
  intro cw ch nows
  exact ⟨(key nows _).1, (key nows _).2.trans rfl⟩

/-! ## Parallax -/

/-- C9: for every viewport with `width > 0` and `height > 0` and every parallax
strength, a pointer at `(width / 2, height / 2)` gives the offset
`(px, py) = (0, 0)`, and every particle is drawn at its stored `(x, y)`. -/
theorem parallax_zero_point (strength : ℚ) (width height : Nat) (hw : 0 < width)
    (hh : 0 < height) :
    parallax (withParallax strength) width height ((width : ℚ) / 2) ((height : ℚ) / 2)
      = (some 0, some 0) ∧
    ∀ c : Particle,
      drawPos (withParallax strength)
        (parallax (withParallax strength) width height ((width : ℚ) / 2) ((height : ℚ) / 2)) c
        = (some c.x, some c.y) := by
  have hw0 : (width : ℚ) ≠ 0 := by exact_mod_cast hw.ne.symm
  have hh0 : (height : ℚ) ≠ 0 := by exact_mod_cast hh.ne.symm
  have hp : parallax (withParallax strength) width height ((width : ℚ) / 2) ((height : ℚ) / 2)
      = (some 0, some 0) := by
    have e1 : (width : ℚ) / 2 / (width : ℚ) = 1 / 2 := by field_simp; ring
    have e2 : (height : ℚ) / 2 / (height : ℚ) = 1 / 2 := by field_simp; ring
    simp only [parallax, jsDiv, hw0, hh0, if_false, Option.map, e1, e2]
    norm_num
  refine ⟨hp, ?_⟩
  intro c
  rw [hp]
  have hb : (withParallax strength).baseSize + 1 ≠ 0 := by
    norm_num [withParallax, CONFIG]
  simp [drawPos, jsDiv, hb]

/-- Witness of C9 in the 1366×768 viewport with the shipped strength. -/
theorem parallax_zero_point_witness :
    parallax (withParallax 0.02) 1366 768 (((1366 : Nat) : ℚ) / 2) (((768 : Nat) : ℚ) / 2)
      = (some 0, some 0) :=
  (parallax_zero_point 0.02 1366 768 (by decide) (by decide)).1

end FloatingCircles
